import Mathlib

/-!
Shallow embedding of `pyowm/webapi25/forecast.py` (Python 2): the classes
`ForecastIterator` and `Forecast`.  Python strings are Lean `String`s,
Python ints/longs are Lean `Int`s, Python exceptions are an explicit
error type, and the two external collaborator classes `Location` and
`Weather` (whose modules are not part of this excerpt) are modelled by
the serialization capabilities the spec requires of them: a JSON value
(what their `to_JSON` string parses to) and an XML element (what their
`_to_DOM` returns), plus an opaque payload.
-/

/-- Python exceptions raised by the code under study: `ValueError` (the
spec's `InvalidValue`), `IndexError` (the spec's `IndexOutOfRange`) and
`StopIteration` (the spec's `EndOfSequence`). -/
inductive PyError where
  | valueError (msg : String)
  | indexError
  | stopIteration
  deriving DecidableEq

/-- A JSON value: the structured form manipulated by Python's `json`
module (`json.loads` / `json.dumps`).  Numbers are restricted to the
integers, the only numeric values this module ever serializes. -/
inductive Json where
  | null
  | bool (b : Bool)
  | num (n : Int)
  | str (s : String)
  | arr (xs : List Json)
  | obj (kvs : List (String × Json))

/-- An XML element as built by `xml.etree.ElementTree`: a tag, optional
text (the empty string standing for "no text", which is how the
serializer treats it), and a list of child elements.  No attributes are
ever set by the code under study. -/
inductive Elem where
  | elem (tag : String) (text : String) (children : List Elem)

/-- Modelled from the spec: a `Weather` collaborator entity (its module is
outside this excerpt).  Per the spec's collaborator contract it exposes a
JSON serialization that parses to a single JSON object (`jsonVal` is that
parsed value) and an XML subtree (`domVal`); `payload` stands for all its
other data, which `Forecast` never inspects. -/
structure Weather where
  jsonVal : Json
  domVal : Elem
  payload : Nat

/-- Modelled from the spec: a `Location` collaborator entity (its module
is outside this excerpt), with the same two serialization capabilities
required by the spec's collaborator contract. -/
structure Location where
  jsonVal : Json
  domVal : Elem
  payload : Nat

/-- Python list indexing `l[i]` for an `int` index: a negative index is
first shifted by the length; an index still outside `[0, len)` raises
`IndexError`. -/
def listGetPy {α : Type} (l : List α) (i : Int) : Except PyError α :=
  let j : Int := if i < 0 then i + l.length else i
  if 0 ≤ j then
    if h : j.toNat < l.length then .ok (l.get ⟨j.toNat, h⟩) else .error .indexError
  else .error .indexError

/-- The error message of the constructor's `ValueError` (built from
characters to fix the single quotes). -/
def receptionTimeErrMsg : String :=
  String.mk ('\'' :: "reception_time".data ++ '\'' :: " must be greater than 0".data)

/-- The error message of `get_reception_time`'s `ValueError`. -/
def formatErrMsg : String :=
  String.mk ("Invalid value for parameter ".data ++ '\'' :: "format".data ++ ['\''])

/-- The state of a constructed `Forecast` object: fields `_interval`,
`_reception_time`, `_location`, `_weathers` of the Python class. -/
structure Forecast where
  interval : String
  reception_time : Int
  location : Location
  weathers : List Weather

/-- `Forecast.__init__`: stores the fields, but first raises
`ValueError` when `long(reception_time) < 0` (the `long` coercion is the
identity on our integer model). -/
def Forecast.init (interval : String) (reception_time : Int)
    (location : Location) (weathers : List Weather) : Except PyError Forecast :=
  if reception_time < 0 then .error (.valueError receptionTimeErrMsg)
  else .ok { interval := interval, reception_time := reception_time,
             location := location, weathers := weathers }

/-- `Forecast.get`: `return self._weathers[index]` with Python list
indexing semantics. -/
def Forecast.get (f : Forecast) (index : Int) : Except PyError Weather :=
  listGetPy f.weathers index

/-- `Forecast.get_interval`. -/
def Forecast.get_interval (f : Forecast) : String :=
  f.interval

/-- `Forecast.set_interval`: unconditionally replaces the interval. -/
def Forecast.set_interval (f : Forecast) (interval : String) : Forecast :=
  { f with interval := interval }

/-- `Forecast.get_location`. -/
def Forecast.get_location (f : Forecast) : Location :=
  f.location

/-- `Forecast.get_weathers`: `return list(self._weathers)` — as a value
this is the same list; the copy (aliasing) aspect is modelled separately
by the heap-based refinement below. -/
def Forecast.get_weathers (f : Forecast) : List Weather :=
  f.weathers

/-- `Forecast.count_weathers`: `return len(self._weathers)`. -/
def Forecast.count_weathers (f : Forecast) : Nat :=
  f.weathers.length

/-- The state of a `ForecastIterator` object: fields `_obj` and `_cnt`.
The cursor starts at 0 and is only ever incremented, so it is a `Nat`. -/
structure ForecastIterator where
  obj : Forecast
  cnt : Nat

/-- `Forecast.__iter__`: returns `ForecastIterator(self)`, whose
constructor sets the cursor to 0. -/
def Forecast.iter (f : Forecast) : ForecastIterator :=
  { obj := f, cnt := 0 }

/-- `ForecastIterator.next`: tries `self._obj.get(self._cnt)`; on
success increments the cursor and returns the item, on `IndexError`
raises `StopIteration` leaving the cursor untouched.  The returned pair
is (result, iterator state after the call). -/
def ForecastIterator.next (it : ForecastIterator) :
    Except PyError Weather × ForecastIterator :=
  match it.obj.get (it.cnt : Int) with
  | .ok w => (.ok w, { it with cnt := it.cnt + 1 })
  | .error _ => (.error .stopIteration, it)

/-- Running an iterator to exhaustion (Python's `for w in self` loop),
with explicit fuel; `Forecast.iterate` supplies enough fuel for the loop
to reach its `StopIteration`. -/
def iterCollect : Nat → ForecastIterator → List Weather
  | 0, _ => []
  | fuel + 1, it =>
    match ForecastIterator.next it with
    | (.ok w, it2) => w :: iterCollect fuel it2
    | (.error _, _) => []

/-- The full sequence a fresh iterator over `f` produces (`for w in self`). -/
def Forecast.iterate (f : Forecast) : List Weather :=
  iterCollect (f.count_weathers + 1) f.iter

/-- Calling `next` `k` times, keeping only the iterator state. -/
def stepN : Nat → ForecastIterator → ForecastIterator
  | 0, it => it
  | k + 1, it => stepN k (ForecastIterator.next it).2

/-! ### Concrete sample data (used by witnesses and counterexamples) -/

/-- A concrete weather entity. -/
def wA : Weather := ⟨Json.obj [("temp", Json.num 280)], Elem.elem "weather" "" [], 0⟩

/-- A second concrete weather entity. -/
def wB : Weather := ⟨Json.obj [("temp", Json.num 281)], Elem.elem "weather" "" [], 1⟩

/-- A concrete location entity. -/
def locA : Location := ⟨Json.obj [("name", Json.str "London")], Elem.elem "location" "" [], 0⟩

/-- A concrete forecast with two weather slots. -/
def sampleForecast : Forecast := ⟨"daily", 1234567890, locA, [wA, wB]⟩

/-! ### Helper lemmas about indexing and the iterator -/

theorem Forecast.count_weathers_eq (f : Forecast) : f.count_weathers = f.weathers.length := rfl

theorem listGetPy_nat_lt {α : Type} (l : List α) (c : Nat) (h : c < l.length) :
    listGetPy l (c : Int) = .ok (l.get ⟨c, h⟩) := by
  have h1 : ¬((c : Int) < 0) := by omega
  have h2 : (0 : Int) ≤ (c : Int) := by omega
  simp [listGetPy, h1, h2, h]

theorem listGetPy_nat_ge {α : Type} (l : List α) (c : Nat) (h : l.length ≤ c) :
    listGetPy l (c : Int) = .error .indexError := by
  have h1 : ¬((c : Int) < 0) := by omega
  have h2 : (0 : Int) ≤ (c : Int) := by omega
  have h3 : ¬((c : Int).toNat < l.length) := by omega
  simp [listGetPy, h1, h2, h3]
  omega

theorem forecast_get_nat_lt (f : Forecast) (c : Nat) (h : c < f.weathers.length) :
    f.get (c : Int) = .ok (f.weathers.get ⟨c, h⟩) :=
  listGetPy_nat_lt f.weathers c h

theorem forecast_get_nat_ge (f : Forecast) (c : Nat) (h : f.weathers.length ≤ c) :
    f.get (c : Int) = .error .indexError :=
  listGetPy_nat_ge f.weathers c h

theorem next_of_lt (f : Forecast) (c : Nat) (h : c < f.weathers.length) :
    ForecastIterator.next ⟨f, c⟩ = (.ok (f.weathers.get ⟨c, h⟩), ⟨f, c + 1⟩) := by
  simp [ForecastIterator.next, forecast_get_nat_lt f c h]

theorem next_of_ge (f : Forecast) (c : Nat) (h : f.weathers.length ≤ c) :
    ForecastIterator.next ⟨f, c⟩ = (.error .stopIteration, ⟨f, c⟩) := by
  simp [ForecastIterator.next, forecast_get_nat_ge f c h]

theorem iterCollect_eq_drop (f : Forecast) :
    ∀ (n c : Nat), f.weathers.length ≤ c + n →
      iterCollect n ⟨f, c⟩ = f.weathers.drop c := by
  intro n
  induction n with
  | zero =>
    intro c h
    rw [iterCollect, List.drop_eq_nil_of_le (by omega)]
  | succ n ih =>
    intro c h
    by_cases hc : c < f.weathers.length
    · rw [iterCollect, next_of_lt f c hc, List.drop_eq_getElem_cons hc]
      show f.weathers.get ⟨c, hc⟩ :: iterCollect n ⟨f, c + 1⟩ =
        f.weathers[c] :: f.weathers.drop (c + 1)
      rw [ih (c + 1) (by omega)]
      rfl
    · rw [iterCollect, next_of_ge f c (by omega), List.drop_eq_nil_of_le (by omega)]

theorem Forecast.iterate_eq_weathers (f : Forecast) : f.iterate = f.weathers := by
  rw [Forecast.iterate, Forecast.iter, iterCollect_eq_drop f _ 0 (by simp [Forecast.count_weathers]),
    List.drop_zero]

/-! ### Claims C1 to C4, C8, C10 -/

/-- C1: constructing a Forecast fails with InvalidValue (a ValueError) iff the
supplied reception_time is negative, for every interval/location/weathers
combination; on success the stored reception_time is the given value, hence
nonnegative for every constructed Forecast. -/
theorem forecast_init_invalidValue_iff (iv : String) (t : Int) (l : Location)
    (ws : List Weather) :
    ((∃ msg, Forecast.init iv t l ws = .error (.valueError msg)) ↔ t < 0)
    ∧ (0 ≤ t → Forecast.init iv t l ws =
        .ok { interval := iv, reception_time := t, location := l, weathers := ws })
    ∧ (∀ f, Forecast.init iv t l ws = .ok f → f.reception_time = t ∧ 0 ≤ f.reception_time) := by
  by_cases ht : t < 0
  · refine ⟨⟨fun _ => ht, fun _ => ⟨receptionTimeErrMsg, by rw [Forecast.init, if_pos ht]⟩⟩,
      fun h0 => absurd ht (by omega), fun f hf => ?_⟩
    rw [Forecast.init, if_pos ht] at hf
    cases hf
  · refine ⟨⟨fun ⟨msg, hmsg⟩ => ?_, fun h => absurd h ht⟩, fun _ => by rw [Forecast.init, if_neg ht],
      fun f hf => ?_⟩
    · rw [Forecast.init, if_neg ht] at hmsg
      cases hmsg
    · rw [Forecast.init, if_neg ht] at hf
      cases hf
      refine ⟨rfl, ?_⟩
      show (0 : Int) ≤ t
      omega

/-- Witness for C1: at reception_time 5 construction succeeds and stores 5. -/
theorem forecast_init_invalidValue_iff_witness :
    Forecast.init "daily" 5 locA [wA] =
      .ok { interval := "daily", reception_time := 5, location := locA, weathers := [wA] }
    ∧ (0 : Int) ≤ 5 :=
  ⟨(forecast_init_invalidValue_iff "daily" 5 locA [wA]).2.1 (by decide), by decide⟩

/-- C2: a full iteration of a Forecast yields exactly count_weathers() items,
equal to the stored list, in the order of get(0), get(1), ...; it then
terminates (the next call on the exhausted iterator signals StopIteration),
and two independently created iterators (any two sufficient fuels) produce
identical sequences. -/
theorem forecast_iteration_spec (f : Forecast) :
    f.iterate = f.weathers
    ∧ f.iterate.length = f.count_weathers
    ∧ (∀ i : Nat, f.iterate[i]? = (f.get (i : Int)).toOption)
    ∧ ForecastIterator.next ⟨f, f.count_weathers⟩ =
        (.error .stopIteration, ⟨f, f.count_weathers⟩)
    ∧ (∀ n m, f.count_weathers + 1 ≤ n → f.count_weathers + 1 ≤ m →
        iterCollect n f.iter = iterCollect m f.iter) := by
  refine ⟨f.iterate_eq_weathers, by rw [f.iterate_eq_weathers, Forecast.count_weathers],
    fun i => ?_, next_of_ge f _ (by rw [Forecast.count_weathers]), fun n m hn hm => ?_⟩
  · rw [f.iterate_eq_weathers]
    by_cases hi : i < f.weathers.length
    · rw [forecast_get_nat_lt f i hi, List.getElem?_eq_getElem hi]
      simp [Except.toOption, List.get_eq_getElem]
    · rw [forecast_get_nat_ge f i (by omega), List.getElem?_eq_none (by omega)]
      simp [Except.toOption]
  · rw [Forecast.iter, iterCollect_eq_drop f n 0 (by simp [Forecast.count_weathers_eq] at hn; omega),
      iterCollect_eq_drop f m 0 (by simp [Forecast.count_weathers_eq] at hm; omega)]

/-- C3 counterexample: on a two-element forecast, get(-1) does not fail with
an out-of-range error although -1 is outside [0, count_weathers()); Python
negative indexing returns the last element instead. -/
theorem forecast_get_negative_index_succeeds :
    sampleForecast.get (-1) = .ok wB ∧ ((-1 : Int) < 0) :=
  ⟨rfl, by decide⟩

/-- C3 amended: get(index) returns the entity at position index when
0 <= index < count_weathers(); when -count_weathers() <= index < 0 it
returns the entity at position index + count_weathers() (Python negative
indexing); it fails with an out-of-range error exactly for
index < -count_weathers() or index >= count_weathers(). -/
theorem forecast_get_spec (f : Forecast) (i : Int) :
    (0 ≤ i → i < f.count_weathers → ∃ w, f.weathers[i.toNat]? = some w ∧ f.get i = .ok w)
    ∧ (i < 0 → -(f.count_weathers : Int) ≤ i →
        ∃ w, f.weathers[(i + f.count_weathers).toNat]? = some w ∧ f.get i = .ok w)
    ∧ ((i < -(f.count_weathers : Int) ∨ (f.count_weathers : Int) ≤ i) →
        f.get i = .error .indexError) := by
  rw [Forecast.count_weathers_eq]
  refine ⟨fun h0 hlt => ?_, fun hneg hge => ?_, fun hout => ?_⟩
  · have hl : i.toNat < f.weathers.length := by omega
    have h1 : ¬(i < 0) := by omega
    refine ⟨f.weathers.get ⟨i.toNat, hl⟩, by rw [List.getElem?_eq_getElem hl]; simp [List.get_eq_getElem], ?_⟩
    simp [Forecast.get, listGetPy, h1, h0, hl]
  · have hl : (i + f.weathers.length).toNat < f.weathers.length := by omega
    have h2 : (0 : Int) ≤ i + f.weathers.length := by omega
    refine ⟨f.weathers.get ⟨(i + f.weathers.length).toNat, hl⟩,
      by rw [List.getElem?_eq_getElem hl]; simp [List.get_eq_getElem], ?_⟩
    simp [Forecast.get, listGetPy, hneg, h2, hl]
  · rcases hout with hout | hout
    · have h1 : i < 0 := by omega
      have h2 : ¬((0 : Int) ≤ i + f.weathers.length) := by omega
      simp [Forecast.get, listGetPy, h1, h2]
    · have h1 : ¬(i < 0) := by omega
      have h2 : (0 : Int) ≤ i := by omega
      have h3 : ¬(i.toNat < f.weathers.length) := by omega
      simp [Forecast.get, listGetPy, h1, h2, h3]

/-- Witness for C3's amended theorem: get(-1) on the two-element sample
returns the last element, and get(5) fails. -/
theorem forecast_get_spec_witness :
    ((-1 : Int) < 0)
    ∧ (∃ w, sampleForecast.weathers[((-1 : Int) + sampleForecast.count_weathers).toNat]? = some w
        ∧ sampleForecast.get (-1) = .ok w)
    ∧ sampleForecast.get 5 = .error .indexError :=
  ⟨by decide,
   (forecast_get_spec sampleForecast (-1)).2.1 (by decide) (by decide),
   (forecast_get_spec sampleForecast 5).2.2 (by decide)⟩

/-- C4: a produce_next call with the cursor strictly below the parent's
element count returns the entity at the pre-increment cursor and increments
the cursor by one; at or beyond the count it signals StopIteration with the
cursor unmodified. -/
theorem forecastIterator_next_spec (f : Forecast) (c : Nat) :
    (∀ h : c < f.count_weathers,
      ForecastIterator.next ⟨f, c⟩ = (.ok (f.weathers.get ⟨c, h⟩), ⟨f, c + 1⟩))
    ∧ (f.count_weathers ≤ c →
      ForecastIterator.next ⟨f, c⟩ = (.error .stopIteration, ⟨f, c⟩)) :=
  ⟨fun h => next_of_lt f c h, fun h => next_of_ge f c h⟩

/-- Witness for C4 at cursor 1 (success: returns the second element,
cursor becomes 2) and cursor 2 (failure path). -/
theorem forecastIterator_next_spec_witness :
    (1 < sampleForecast.count_weathers)
    ∧ ForecastIterator.next ⟨sampleForecast, 1⟩ =
        (.ok (sampleForecast.weathers.get ⟨1, by decide⟩), ⟨sampleForecast, 2⟩)
    ∧ (sampleForecast.count_weathers ≤ 2)
    ∧ ForecastIterator.next ⟨sampleForecast, 2⟩ =
        (.error .stopIteration, ⟨sampleForecast, 2⟩) :=
  ⟨by decide,
   (forecastIterator_next_spec sampleForecast 1).1 (by decide),
   by decide,
   (forecastIterator_next_spec sampleForecast 2).2 (by decide)⟩

/-- C8: count_weathers() equals the number of entities supplied at
construction, and no operation changes the stored weather sequence: the
constructor stores the given list, set_interval leaves it untouched (and
leaves get unchanged), the iterator never modifies its parent, and
get_weathers and iteration return exactly the stored sequence. -/
theorem forecast_weathers_never_change (iv : String) (t : Int) (l : Location)
    (ws : List Weather) (f : Forecast) (hf : Forecast.init iv t l ws = .ok f) :
    f.count_weathers = ws.length
    ∧ f.weathers = ws
    ∧ (∀ s, (f.set_interval s).weathers = f.weathers
        ∧ (f.set_interval s).count_weathers = f.count_weathers
        ∧ ∀ i, (f.set_interval s).get i = f.get i)
    ∧ (∀ c, ((ForecastIterator.next ⟨f, c⟩).2).obj = f)
    ∧ f.get_weathers = f.weathers
    ∧ f.iterate = f.weathers := by
  have hws : f.weathers = ws := by
    rw [Forecast.init] at hf
    split at hf
    · cases hf
    · cases hf
      rfl
  refine ⟨by rw [Forecast.count_weathers_eq, hws], hws, fun s => ⟨rfl, rfl, fun i => rfl⟩,
    fun c => ?_, rfl, f.iterate_eq_weathers⟩
  by_cases hc : c < f.weathers.length
  · rw [next_of_lt f c hc]
  · rw [next_of_ge f c (by omega)]

/-- Witness for C8 on a concrete construction. -/
theorem forecast_weathers_never_change_witness :
    Forecast.init "3h" 7 locA [wA, wB] =
      .ok { interval := "3h", reception_time := 7, location := locA, weathers := [wA, wB] }
    ∧ ((⟨"3h", 7, locA, [wA, wB]⟩ : Forecast)).count_weathers = [wA, wB].length :=
  ⟨rfl, (forecast_weathers_never_change "3h" 7 locA [wA, wB] _ rfl).1⟩

/-- C10: once the cursor has reached count_weathers(), exhaustion is
permanent: any number of further next calls leaves the cursor unchanged and
every further call signals StopIteration. -/
theorem forecastIterator_exhausted_spec (f : Forecast) (c : Nat)
    (h : f.count_weathers ≤ c) :
    (∀ k, stepN k ⟨f, c⟩ = ⟨f, c⟩)
    ∧ ForecastIterator.next ⟨f, c⟩ = (.error .stopIteration, ⟨f, c⟩) := by
  rw [Forecast.count_weathers_eq] at h
  have hnext := next_of_ge f c h
  refine ⟨fun k => ?_, hnext⟩
  induction k with
  | zero => rfl
  | succ k ih => rw [stepN, hnext, ih]

/-- Witness for C10: the sample forecast's iterator at cursor 2 stays at 2
after three more calls and keeps signalling StopIteration. -/
theorem forecastIterator_exhausted_spec_witness :
    (sampleForecast.count_weathers ≤ 2)
    ∧ stepN 3 ⟨sampleForecast, 2⟩ = ⟨sampleForecast, 2⟩
    ∧ ForecastIterator.next ⟨sampleForecast, 2⟩ =
        (.error .stopIteration, ⟨sampleForecast, 2⟩) :=
  ⟨by decide,
   (forecastIterator_exhausted_spec sampleForecast 2 (by decide)).1 3,
   (forecastIterator_exhausted_spec sampleForecast 2 (by decide)).2⟩

/-- Witness for C2: on the sample forecast, iteration returns the stored
list, and two runs with independent (sufficient) fuels agree. -/
theorem forecast_iteration_spec_witness :
    sampleForecast.iterate = sampleForecast.weathers
    ∧ (sampleForecast.count_weathers + 1 ≤ 3)
    ∧ (sampleForecast.count_weathers + 1 ≤ 4)
    ∧ iterCollect 3 sampleForecast.iter = iterCollect 4 sampleForecast.iter :=
  ⟨(forecast_iteration_spec sampleForecast).1, by decide, by decide,
   (forecast_iteration_spec sampleForecast).2.2.2.2 3 4 (by decide) (by decide)⟩

/-! ### Reception time formatting (claim C5) -/

/-- Left-pads the decimal rendering of a natural number with zeros. -/
def padZeros (w : Nat) (n : Nat) : List Char :=
  let s := (toString n).data
  List.replicate (w - s.length) '0' ++ s

/-- Modelled from the spec: `timeformatutils.UNIXtime_to_ISO8601`, whose
module is outside this excerpt.  Per the spec it converts a UNIX epoch
integer (GMT) to a string of the form YYYY-MM-DD HH:MM:SS+00; this is the
standard civil-from-days calendar computation, stated for the nonnegative
timestamps every constructed Forecast carries. -/
def UNIXtime_to_ISO8601 (t : Int) : String :=
  let n := t.toNat
  let days := n / 86400
  let secs := n % 86400
  let hh := secs / 3600
  let mm := secs % 3600 / 60
  let ss := secs % 60
  let z := days + 719468
  let era := z / 146097
  let doe := z % 146097
  let yoe := (doe - doe / 1460 + doe / 36524 - doe / 146096) / 365
  let y0 := yoe + era * 400
  let doy := doe - (365 * yoe + yoe / 4 - yoe / 100)
  let mp := (5 * doy + 2) / 153
  let d := doy - (153 * mp + 2) / 5 + 1
  let m := if mp < 10 then mp + 3 else mp - 9
  let y := if m ≤ 2 then y0 + 1 else y0
  String.mk (padZeros 4 y ++ '-' :: padZeros 2 m ++ '-' :: padZeros 2 d ++ ' ' ::
    padZeros 2 hh ++ ':' :: padZeros 2 mm ++ ':' :: padZeros 2 ss ++ "+00".data)

/-- The heterogeneous return value of `get_reception_time`: a long for
the unix format, a string for the iso format. -/
inductive TimeValue where
  | unix (t : Int)
  | iso (s : String)
  deriving DecidableEq

/-- `Forecast.get_reception_time`: dispatches on the format token,
raising `ValueError` on anything other than the two known tokens. -/
def Forecast.get_reception_time (f : Forecast) (timeformat : String) :
    Except PyError TimeValue :=
  if timeformat = "unix" then .ok (.unix f.reception_time)
  else if timeformat = "iso" then .ok (.iso (UNIXtime_to_ISO8601 f.reception_time))
  else .error (.valueError formatErrMsg)

/-- C5: for a Forecast constructed with nonnegative timestamp t,
get_reception_time returns exactly t for the unix format, the
UNIXtime_to_ISO8601 rendering of t for the iso format, and fails with
InvalidValue (a ValueError) for every other format string. -/
theorem forecast_get_reception_time_spec (iv : String) (t : Int) (l : Location)
    (ws : List Weather) (f : Forecast) (_ht : 0 ≤ t)
    (hf : Forecast.init iv t l ws = .ok f) :
    f.get_reception_time "unix" = .ok (.unix t)
    ∧ f.get_reception_time "iso" = .ok (.iso (UNIXtime_to_ISO8601 t))
    ∧ (∀ s, s ≠ "unix" → s ≠ "iso" →
        f.get_reception_time s = .error (.valueError formatErrMsg)) := by
  have hr : f.reception_time = t := by
    rw [Forecast.init] at hf
    split at hf
    · cases hf
    · cases hf
      rfl
  refine ⟨?_, ?_, fun s h1 h2 => ?_⟩
  · simp [Forecast.get_reception_time, hr]
  · simp [Forecast.get_reception_time, hr]
  · simp [Forecast.get_reception_time, h1, h2]

/-- Witness for C5 at t = 1234567890 and the unknown format token "xml". -/
theorem forecast_get_reception_time_spec_witness :
    ((0 : Int) ≤ 1234567890)
    ∧ Forecast.init "daily" 1234567890 locA [wA, wB] = .ok sampleForecast
    ∧ sampleForecast.get_reception_time "unix" = .ok (.unix 1234567890)
    ∧ sampleForecast.get_reception_time "iso" =
        .ok (.iso (UNIXtime_to_ISO8601 1234567890))
    ∧ UNIXtime_to_ISO8601 1234567890 = "2009-02-13 23:31:30+00"
    ∧ sampleForecast.get_reception_time "xml" = .error (.valueError formatErrMsg) :=
  ⟨by decide, rfl,
   (forecast_get_reception_time_spec "daily" 1234567890 locA [wA, wB]
     sampleForecast (by decide) rfl).1,
   (forecast_get_reception_time_spec "daily" 1234567890 locA [wA, wB]
     sampleForecast (by decide) rfl).2.1,
   by decide,
   (forecast_get_reception_time_spec "daily" 1234567890 locA [wA, wB]
     sampleForecast (by decide) rfl).2.2 "xml" (by decide) (by decide)⟩

/-! ### Heap refinement for the defensive copy in get_weathers (claim C9) -/

/-- A heap of Python list objects holding Weather entities; a reference
is an index into the cell list.  This refines the pure model above just
enough to express aliasing: `list(self._weathers)` allocates a fresh
cell, and in-place mutation of a list object is a write to its cell. -/
structure Heap where
  cells : List (List Weather)

/-- Dereference a list object. -/
def Heap.read (h : Heap) (r : Nat) : List Weather :=
  (h.cells[r]?).getD []

/-- Allocate a fresh list object with the given contents. -/
def Heap.alloc (h : Heap) (v : List Weather) : Nat × Heap :=
  (h.cells.length, ⟨h.cells ++ [v]⟩)

/-- Mutate a list object in place (models append/remove/reorder on it). -/
def Heap.write (h : Heap) (r : Nat) (v : List Weather) : Heap :=
  ⟨h.cells.set r v⟩

/-- A Forecast whose `_weathers` field is a reference to a heap cell. -/
structure ForecastH where
  interval : String
  reception_time : Int
  location : Location
  weathersRef : Nat

/-- `count_weathers` in the heap model. -/
def ForecastH.count_weathers (f : ForecastH) (h : Heap) : Nat :=
  (h.read f.weathersRef).length

/-- `get` in the heap model. -/
def ForecastH.get (f : ForecastH) (h : Heap) (i : Int) : Except PyError Weather :=
  listGetPy (h.read f.weathersRef) i

/-- `get_weathers` in the heap model: `return list(self._weathers)`
allocates a fresh list object with the same elements. -/
def ForecastH.get_weathers (f : ForecastH) (h : Heap) : Nat × Heap :=
  h.alloc (h.read f.weathersRef)

/-- C9: get_weathers returns a fresh copy: the returned list object has
the same elements in the same order as the internal one, is a different
object, and after any in-place mutation of it, count_weathers and get
answer exactly as before. -/
theorem forecast_get_weathers_copy_spec (f : ForecastH) (h : Heap)
    (hv : f.weathersRef < h.cells.length) :
    ((f.get_weathers h).2).read (f.get_weathers h).1 = h.read f.weathersRef
    ∧ (f.get_weathers h).1 ≠ f.weathersRef
    ∧ (∀ l2, ForecastH.count_weathers f (((f.get_weathers h).2).write (f.get_weathers h).1 l2) =
        ForecastH.count_weathers f h)
    ∧ (∀ l2 i, ForecastH.get f (((f.get_weathers h).2).write (f.get_weathers h).1 l2) i =
        ForecastH.get f h i) := by
  have hread : ∀ l2,
      (((f.get_weathers h).2).write (f.get_weathers h).1 l2).read f.weathersRef =
        h.read f.weathersRef := by
    intro l2
    simp only [ForecastH.get_weathers, Heap.alloc, Heap.write, Heap.read]
    rw [List.getElem?_set_ne (by omega), List.getElem?_append_left hv]
  refine ⟨?_, by simp [ForecastH.get_weathers, Heap.alloc]; omega, fun l2 => ?_, fun l2 i => ?_⟩
  · simp only [ForecastH.get_weathers, Heap.alloc, Heap.read]
    rw [List.getElem?_concat_length]
    rfl
  · rw [ForecastH.count_weathers, ForecastH.count_weathers, hread l2]
  · rw [ForecastH.get, ForecastH.get, hread l2]

/-- Witness for C9: a single-cell heap holding the two sample weathers. -/
theorem forecast_get_weathers_copy_spec_witness :
    ((⟨"daily", 0, locA, 0⟩ : ForecastH).weathersRef < (⟨[[wA, wB]]⟩ : Heap).cells.length)
    ∧ (∀ l2, ForecastH.count_weathers ⟨"daily", 0, locA, 0⟩
        ((((⟨"daily", 0, locA, 0⟩ : ForecastH).get_weathers ⟨[[wA, wB]]⟩).2).write
          (((⟨"daily", 0, locA, 0⟩ : ForecastH).get_weathers ⟨[[wA, wB]]⟩).1) l2) =
        ForecastH.count_weathers ⟨"daily", 0, locA, 0⟩ ⟨[[wA, wB]]⟩) :=
  ⟨by decide,
   (forecast_get_weathers_copy_spec ⟨"daily", 0, locA, 0⟩ ⟨[[wA, wB]]⟩ (by decide)).2.2.1⟩

/-! ### JSON serialization (claim C6) -/

/-- A lowercase hexadecimal digit. -/
def hexDig (n : Nat) : Char :=
  if n < 10 then Char.ofNat (48 + n) else Char.ofNat (87 + n)

/-- A JSON \uXXXX escape. -/
def uEsc4 (n : Nat) : List Char :=
  ['\\', 'u', hexDig (n / 4096 % 16), hexDig (n / 256 % 16), hexDig (n / 16 % 16),
    hexDig (n % 16)]

/-- Modelled from the spec: the escaping `json.dumps` (outside this
excerpt) applies inside string literals — short escapes for quote,
backslash and the common control characters, \uXXXX for the remaining
control and all non-ASCII characters (ensure_ascii default), surrogate
pairs beyond the basic plane. -/
def escJsonChar (c : Char) : List Char :=
  if c = '"' then ['\\', '"']
  else if c = '\\' then ['\\', '\\']
  else if c = '\n' then ['\\', 'n']
  else if c = '\t' then ['\\', 't']
  else if c = '\r' then ['\\', 'r']
  else if c.toNat = 8 then ['\\', 'b']
  else if c.toNat = 12 then ['\\', 'f']
  else if c.toNat < 32 ∨ 126 < c.toNat then
    if c.toNat < 65536 then uEsc4 c.toNat
    else uEsc4 (55296 + (c.toNat - 65536) / 1024) ++ uEsc4 (56320 + (c.toNat - 65536) % 1024)
  else [c]

/-- Escape every character of a JSON string body. -/
def escJsonString : List Char → List Char
  | [] => []
  | c :: rest => escJsonChar c ++ escJsonString rest

/-- A quoted JSON string literal. -/
def jsonQuote (s : String) : List Char :=
  '"' :: escJsonString s.data ++ ['"']

mutual
/-- Modelled from the spec: `json.dumps` (outside this excerpt) on a
structured value, with Python's default separators. -/
def Json.dumpChars : Json → List Char
  | .null => "null".data
  | .bool true => "true".data
  | .bool false => "false".data
  | .num n => (toString n).data
  | .str s => jsonQuote s
  | .arr xs => '[' :: Json.dumpList xs ++ [']']
  | .obj kvs => '{' :: Json.dumpObjList kvs ++ ['}']
/-- Array elements joined by ", ". -/
def Json.dumpList : List Json → List Char
  | [] => []
  | [x] => Json.dumpChars x
  | x :: y :: rest => Json.dumpChars x ++ ',' :: ' ' :: Json.dumpList (y :: rest)
/-- Object members "key: value" joined by ", ". -/
def Json.dumpObjList : List (String × Json) → List Char
  | [] => []
  | [(k, v)] => jsonQuote k ++ ':' :: ' ' :: Json.dumpChars v
  | (k, v) :: p :: rest =>
    jsonQuote k ++ ':' :: ' ' :: Json.dumpChars v ++ ',' :: ' ' :: Json.dumpObjList (p :: rest)
end

/-- `json.dumps` as a string. -/
def Json.dumps (j : Json) : String := String.mk j.dumpChars

/-- Field lookup in an object member list. -/
def lookupPairs : List (String × Json) → String → Option Json
  | [], _ => none
  | (k, v) :: rest, key => if k = key then some v else lookupPairs rest key

/-- Field lookup in a JSON value (none on non-objects). -/
def Json.lookup : Json → String → Option Json
  | .obj kvs, key => lookupPairs kvs key
  | _, _ => none

/-- Modelled from the spec: `Location.to_JSON` (outside this excerpt)
returns a string that parses to the location's JSON object, so it is the
dump of that structured value. -/
def Location.to_JSON (l : Location) : String := l.jsonVal.dumps

/-- Modelled from the spec: `Weather.to_JSON` (outside this excerpt)
returns a string that parses to the weather's JSON object. -/
def Weather.to_JSON (w : Weather) : String := w.jsonVal.dumps

/-- The structured value serialized by `Forecast.to_JSON`: the source
builds a dict with the four keys below, where
`json.loads(self._location.to_JSON())` is the location's structured value
(`json.loads` inverts the collaborator's self-contained dump) and
`json.loads("[" + ",".join([w.to_JSON() for w in self]) + "]")` is the
array of the weathers' structured values in iteration order.  Python 2
dicts are unordered, so the member order below (the source's literal
order) is one admissible serialization order; none of the proved
properties depend on it. -/
def Forecast.to_JSON_value (f : Forecast) : Json :=
  Json.obj [("interval", .str f.interval),
            ("reception_time", .num f.reception_time),
            ("Location", f.location.jsonVal),
            ("weathers", .arr (f.iterate.map Weather.jsonVal))]

/-- `Forecast.to_JSON`: `json.dumps` of the dict above. -/
def Forecast.to_JSON (f : Forecast) : String := f.to_JSON_value.dumps

/-- C6: when the collaborators produce self-contained JSON objects,
to_JSON() is the JSON dump of an object whose interval member is the
stored interval string, whose reception_time member is the raw stored
unix integer, whose Location member is the location's own (nested) JSON
object, and whose weathers member is a JSON array holding one object per
stored weather entity in storage order, of length count_weathers(). -/
theorem forecast_to_JSON_spec (f : Forecast)
    (hl : ∃ kvs, f.location.jsonVal = Json.obj kvs)
    (hw : ∀ w ∈ f.weathers, ∃ kvs, w.jsonVal = Json.obj kvs) :
    f.to_JSON = Json.dumps f.to_JSON_value
    ∧ (∃ kvs, f.to_JSON_value = Json.obj kvs)
    ∧ f.to_JSON_value.lookup "interval" = some (.str f.interval)
    ∧ f.to_JSON_value.lookup "reception_time" = some (.num f.reception_time)
    ∧ f.to_JSON_value.lookup "Location" = some f.location.jsonVal
    ∧ (∃ kvs, f.to_JSON_value.lookup "Location" = some (Json.obj kvs))
    ∧ f.to_JSON_value.lookup "weathers" = some (.arr (f.weathers.map Weather.jsonVal))
    ∧ (f.weathers.map Weather.jsonVal).length = f.count_weathers
    ∧ (∀ j ∈ f.weathers.map Weather.jsonVal, ∃ kvs, j = Json.obj kvs) := by
  obtain ⟨lkvs, hlk⟩ := hl
  refine ⟨rfl, ⟨_, rfl⟩, by simp [Forecast.to_JSON_value, Json.lookup, lookupPairs],
    by simp [Forecast.to_JSON_value, Json.lookup, lookupPairs],
    by simp [Forecast.to_JSON_value, Json.lookup, lookupPairs],
    ⟨lkvs, by simp [Forecast.to_JSON_value, Json.lookup, lookupPairs, hlk]⟩,
    ?_, by rw [List.length_map, Forecast.count_weathers_eq], fun j hj => ?_⟩
  · simp [Forecast.to_JSON_value, Json.lookup, lookupPairs, f.iterate_eq_weathers]
  · obtain ⟨w, hwmem, rfl⟩ := List.mem_map.mp hj
    exact hw w hwmem

/-- Witness for C6 on the sample forecast: both collaborator hypotheses
hold definitionally and the four members are as stated. -/
theorem forecast_to_JSON_spec_witness :
    sampleForecast.to_JSON = Json.dumps sampleForecast.to_JSON_value
    ∧ sampleForecast.to_JSON_value.lookup "interval" = some (Json.str "daily")
    ∧ sampleForecast.to_JSON_value.lookup "reception_time" = some (Json.num 1234567890)
    ∧ sampleForecast.to_JSON_value.lookup "Location" = some locA.jsonVal
    ∧ sampleForecast.to_JSON_value.lookup "weathers" =
        some (Json.arr [wA.jsonVal, wB.jsonVal]) := by
  have h := forecast_to_JSON_spec sampleForecast ⟨_, rfl⟩ (by
    intro w hmem
    simp only [sampleForecast, List.mem_cons, List.not_mem_nil, or_false] at hmem
    rcases hmem with rfl | rfl
    · exact ⟨_, rfl⟩
    · exact ⟨_, rfl⟩)
  refine ⟨h.1, h.2.2.1, h.2.2.2.1, h.2.2.2.2.1, ?_⟩
  rw [h.2.2.2.2.2.2.1]
  rfl

/-! ### XML serialization (claim C7) -/

/-- Modelled from the spec: the character data escaping ElementTree
(outside this excerpt) applies to text nodes. -/
def escXmlChar (c : Char) : List Char :=
  if c = '&' then "&amp;".data
  else if c = '<' then "&lt;".data
  else if c = '>' then "&gt;".data
  else [c]

/-- Escape a whole text node. -/
def escXml : List Char → List Char
  | [] => []
  | c :: rest => escXmlChar c ++ escXml rest

mutual
/-- Modelled from the spec: ElementTree's XML body serializer (outside
this excerpt): an element with neither text nor children prints
self-closed, otherwise tag, escaped text, children, closing tag. -/
def serializeElem : Elem → List Char
  | .elem tag text children =>
    if text.data.isEmpty && children.isEmpty then
      '<' :: tag.data ++ ' ' :: '/' :: ['>']
    else
      '<' :: tag.data ++ '>' :: escXml text.data ++ serializeElems children
        ++ '<' :: '/' :: tag.data ++ ['>']
/-- Children serializations, concatenated in order. -/
def serializeElems : List Elem → List Char
  | [] => []
  | e :: rest => serializeElem e ++ serializeElems rest
end

/-- The exact declaration characters <?xml version='1.0' encoding='utf8'?>
(built from characters to fix the single quotes). -/
def xmlDecl : List Char :=
  '<' :: '?' :: "xml version=".data ++ '\'' :: "1.0".data ++ '\'' :: " encoding=".data
    ++ '\'' :: "utf8".data ++ '\'' :: ['?', '>']

/-- The separator the source splits on: the declaration line including
its trailing newline. -/
def xmlSep : List Char := xmlDecl ++ ['\n']

/-- Modelled from the spec: `ET.tostring(root, encoding='utf8')` prints
the declaration line, a newline, then the serialized body. -/
def ET_tostring (e : Elem) : List Char := xmlDecl ++ '\n' :: serializeElem e

/-- Extends the first chunk of a split result by one character. -/
def consHead (c : Char) : List (List Char) → List (List Char)
  | [] => [[c]]
  | chunk :: more => (c :: chunk) :: more

/-- Python `str.split(sep)` (for nonempty sep), with explicit fuel; any
fuel above the length of the input is enough.  A separator match ends
the current chunk and continues after it; otherwise the current
character joins the current chunk. -/
def pySplitF (sep : List Char) : Nat → List Char → List (List Char)
  | 0, l => [l]
  | _ + 1, [] => [[]]
  | fuel + 1, c :: rest =>
    if sep ≠ [] ∧ sep.isPrefixOf (c :: rest) then
      [] :: pySplitF sep fuel ((c :: rest).drop sep.length)
    else consHead c (pySplitF sep fuel rest)

/-- Python `str.split(sep)` at adequate fuel. -/
def pySplit (sep l : List Char) : List (List Char) := pySplitF sep (l.length + 1) l

/-- `Forecast._to_DOM`: a forecast root with interval, reception_time,
the location's subtree and a weathers node holding the weathers'
subtrees in iteration order. -/
def Forecast.to_DOM (f : Forecast) : Elem :=
  Elem.elem "forecast" "" [
    Elem.elem "interval" f.interval [],
    Elem.elem "reception_time" (toString f.reception_time) [],
    f.location.domVal,
    Elem.elem "weathers" "" (f.iterate.map Weather.domVal)]

/-- `Forecast.to_XML`: serializes the DOM; with preamble the full text,
without it the `result.split(decl)[1]` of the source, which is `none`
exactly when the Python indexing `[1]` would raise. -/
def Forecast.to_XML (f : Forecast) (preamble : Bool) : Option String :=
  let result := ET_tostring f.to_DOM
  if preamble then some (String.mk result)
  else ((pySplit xmlSep result)[1]?).map String.mk

/-- A tag usable in serialized XML: free of the characters that could
fabricate a declaration-like `<?` in the output. -/
def tagOk (t : String) : Bool :=
  t.data.all fun c => decide (c ≠ '<' ∧ c ≠ '?')

mutual
/-- All tags of an element tree are well formed (the spec requires
collaborator subtrees be suitable for embedding). -/
def Elem.goodTags : Elem → Bool
  | .elem tag _ children => tagOk tag && Elem.goodTagsList children
/-- Tag wellformedness over a list of elements. -/
def Elem.goodTagsList : List Elem → Bool
  | [] => true
  | e :: rest => Elem.goodTags e && Elem.goodTagsList rest
end

/-- The pair relation whose chains contain no declaration opener: a
character pair is admissible unless it spells out the two characters
a processing-instruction opener starts with. -/
def Rlt (a b : Char) : Prop := ¬(a = '<' ∧ b = '?')

theorem Rlt_of_left {a b : Char} (h : a ≠ '<') : Rlt a b := fun hc => h hc.1

theorem Rlt_of_right {a b : Char} (h : b ≠ '?') : Rlt a b := fun hc => h hc.2

theorem no_lt_escXmlChar (c : Char) : '<' ∉ escXmlChar c := by
  rw [escXmlChar]
  split_ifs with h1 h2 h3
  · decide
  · decide
  · decide
  · simp only [List.mem_singleton]
    exact fun hc => h2 hc.symm

theorem no_lt_escXml (l : List Char) : '<' ∉ escXml l := by
  induction l with
  | nil => simp [escXml]
  | cons c rest ih =>
    rw [escXml]
    intro hm
    rcases List.mem_append.mp hm with hm1 | hm2
    · exact no_lt_escXmlChar c hm1
    · exact ih hm2

theorem chain_of_no_lt (l : List Char) (h : '<' ∉ l) : List.Chain' Rlt l := by
  induction l with
  | nil => exact List.chain'_nil
  | cons c rest ih =>
    rw [List.chain'_cons']
    refine ⟨fun y _ => Rlt_of_left fun hc => h ?_, ih fun hm => h (List.mem_cons_of_mem c hm)⟩
    rw [hc]
    exact List.mem_cons_self _ _

theorem chain_append_head_ne (a b : List Char) (ha : List.Chain' Rlt a)
    (hb : List.Chain' Rlt b) (h : ∀ y, b.head? = some y → y ≠ '?') :
    List.Chain' Rlt (a ++ b) := by
  rw [List.chain'_append]
  exact ⟨ha, hb, fun x _ y hy => Rlt_of_right (h y (Option.mem_def.mp hy))⟩

theorem tagOk_no_lt {t : String} (h : tagOk t = true) : '<' ∉ t.data := by
  intro hm
  rw [tagOk, List.all_eq_true] at h
  have h2 := h '<' hm
  rw [decide_eq_true_eq] at h2
  exact h2.1 rfl

theorem tagOk_mem_ne {t : String} (h : tagOk t = true) {y : Char} (hy : y ∈ t.data) :
    y ≠ '<' ∧ y ≠ '?' := by
  rw [tagOk, List.all_eq_true] at h
  have h2 := h y hy
  rwa [decide_eq_true_eq] at h2

theorem chain_lt_tag {t : String} (h : tagOk t = true) :
    List.Chain' Rlt ('<' :: t.data) := by
  rw [List.chain'_cons']
  exact ⟨fun y hy => Rlt_of_right (tagOk_mem_ne h (List.mem_of_mem_head? hy)).2,
    chain_of_no_lt _ (tagOk_no_lt h)⟩

theorem chain_close_tag {t : String} (h : tagOk t = true) :
    List.Chain' Rlt ('<' :: '/' :: t.data) := by
  rw [List.chain'_cons]
  refine ⟨Rlt_of_right (by decide), ?_⟩
  rw [List.chain'_cons']
  exact ⟨fun y _ => Rlt_of_left (by decide), chain_of_no_lt _ (tagOk_no_lt h)⟩

theorem head_serializeElem (e : Elem) : (serializeElem e).head? = some '<' := by
  cases e with
  | elem tag text children =>
    rw [serializeElem]
    split
    · rfl
    · rfl

theorem head_serializeElems (l : List Elem) :
    (serializeElems l).head? = none ∨ (serializeElems l).head? = some '<' := by
  cases l with
  | nil =>
    left
    rw [serializeElems]
    rfl
  | cons e rest =>
    right
    rw [serializeElems, List.head?_append, head_serializeElem e]
    rfl

mutual
theorem chain_serializeElem (e : Elem) (h : Elem.goodTags e = true) :
    List.Chain' Rlt (serializeElem e) := by
  cases e with
  | elem tag text children =>
    rw [Elem.goodTags, Bool.and_eq_true] at h
    rw [serializeElem]
    split
    · refine chain_append_head_ne _ _ (chain_lt_tag h.1) (chain_of_no_lt _ (by decide)) ?_
      intro y hy
      cases hy
      decide
    · refine chain_append_head_ne _ _ ?_ (chain_of_no_lt _ (by decide)) ?_
      · refine chain_append_head_ne _ _ ?_ (chain_close_tag h.1) ?_
        · refine chain_append_head_ne _ _ ?_ (chain_serializeElems children h.2) ?_
          · refine chain_append_head_ne _ _ (chain_lt_tag h.1) ?_ ?_
            · rw [List.chain'_cons']
              exact ⟨fun y _ => Rlt_of_left (by decide),
                chain_of_no_lt _ (no_lt_escXml text.data)⟩
            · intro y hy
              cases hy
              decide
          · intro y hy
            rcases head_serializeElems children with hn | hs
            · rw [hn] at hy
              cases hy
            · rw [hs] at hy
              cases hy
              decide
        · intro y hy
          cases hy
          decide
      · intro y hy
        cases hy
        decide
termination_by sizeOf e
theorem chain_serializeElems (l : List Elem) (h : Elem.goodTagsList l = true) :
    List.Chain' Rlt (serializeElems l) := by
  cases l with
  | nil =>
    rw [serializeElems]
    exact List.chain'_nil
  | cons e rest =>
    rw [Elem.goodTagsList, Bool.and_eq_true] at h
    rw [serializeElems]
    refine chain_append_head_ne _ _ (chain_serializeElem e h.1)
      (chain_serializeElems rest h.2) ?_
    intro y hy
    rcases head_serializeElems rest with hn | hs
    · rw [hn] at hy
      cases hy
    · rw [hs] at hy
      cases hy
      decide
termination_by sizeOf l
end

theorem not_infix_declaration {l : List Char} (h : List.Chain' Rlt l) :
    ¬("<?xml".data <:+: l) := by
  intro hinf
  have hpre : (['<', '?'] : List Char) <+: "<?xml".data := by decide
  have h3 := h.infix (hpre.isInfix.trans hinf)
  rw [List.chain'_cons] at h3
  exact h3.1 ⟨rfl, rfl⟩

theorem pySplitF_no_sep (sep : List Char) :
    ∀ (fuel : Nat) (l : List Char), ¬(sep <:+: l) → pySplitF sep fuel l = [l] := by
  intro fuel
  induction fuel with
  | zero =>
    intro l _
    rfl
  | succ fuel ih =>
    intro l h
    cases l with
    | nil => rw [pySplitF]
    | cons c rest =>
      rw [pySplitF]
      have hpre : ¬(sep ≠ [] ∧ sep.isPrefixOf (c :: rest)) := by
        rintro ⟨-, hp⟩
        exact h (List.isPrefixOf_iff_prefix.mp hp).isInfix
      rw [if_neg hpre, ih rest fun hinf => h (List.infix_cons hinf)]
      rfl

theorem pySplit_of_sep_prefix (sep body : List Char) (hsep : sep ≠ [])
    (hnot : ¬(sep <:+: body)) : pySplit sep (sep ++ body) = [[], body] := by
  obtain ⟨c, sep', rfl⟩ := List.exists_cons_of_ne_nil hsep
  have hp : (c :: sep') <+: (c :: (sep' ++ body)) := by
    rw [← List.cons_append]
    exact List.prefix_append _ _
  rw [pySplit, List.cons_append, pySplitF,
    if_pos ⟨List.cons_ne_nil c sep', List.isPrefixOf_iff_prefix.mpr hp⟩]
  simp only [List.length_cons, List.drop_succ_cons, List.drop_left]
  rw [pySplitF_no_sep _ _ body hnot]

theorem goodTagsList_of_forall {l : List Elem} (h : ∀ e ∈ l, Elem.goodTags e = true) :
    Elem.goodTagsList l = true := by
  induction l with
  | nil => rw [Elem.goodTagsList]
  | cons e rest ih =>
    rw [Elem.goodTagsList, Bool.and_eq_true]
    exact ⟨h e (List.mem_cons_self _ _), ih fun x hx => h x (List.mem_cons_of_mem _ hx)⟩

theorem goodTags_to_DOM (f : Forecast) (hl : Elem.goodTags f.location.domVal = true)
    (hw : ∀ w ∈ f.weathers, Elem.goodTags w.domVal = true) :
    Elem.goodTags f.to_DOM = true := by
  rw [Forecast.to_DOM, Elem.goodTags, Bool.and_eq_true]
  refine ⟨by decide, ?_⟩
  rw [Elem.goodTagsList, Bool.and_eq_true]
  refine ⟨by rw [Elem.goodTags, Elem.goodTagsList]; decide, ?_⟩
  rw [Elem.goodTagsList, Bool.and_eq_true]
  refine ⟨by rw [Elem.goodTags, Elem.goodTagsList]; decide, ?_⟩
  rw [Elem.goodTagsList, Bool.and_eq_true]
  refine ⟨hl, ?_⟩
  rw [Elem.goodTagsList, Bool.and_eq_true]
  refine ⟨?_, by rw [Elem.goodTagsList]⟩
  rw [Elem.goodTags, Bool.and_eq_true]
  refine ⟨by decide, goodTagsList_of_forall ?_⟩
  intro e he
  rw [f.iterate_eq_weathers] at he
  obtain ⟨w, hwmem, rfl⟩ := List.mem_map.mp he
  exact hw w hwmem

/-- C7: with well-formed collaborator subtrees, to_XML(preamble=True) is
the declaration line, a newline, then the serialized body — so it starts
with the exact declaration line — and to_XML(preamble=False) is exactly
that same text with the leading declaration line (newline included)
removed and the remainder unchanged; the no-preamble output never
contains the substring of the declaration opener followed by xml. -/
theorem forecast_to_XML_spec (f : Forecast)
    (hl : Elem.goodTags f.location.domVal = true)
    (hw : ∀ w ∈ f.weathers, Elem.goodTags w.domVal = true) :
    f.to_XML true = some (String.mk (ET_tostring f.to_DOM))
    ∧ ET_tostring f.to_DOM = xmlSep ++ serializeElem f.to_DOM
    ∧ xmlSep <+: ET_tostring f.to_DOM
    ∧ f.to_XML false = some (String.mk (serializeElem f.to_DOM))
    ∧ ¬("<?xml".data <:+: serializeElem f.to_DOM) := by
  have hassoc : ET_tostring f.to_DOM = xmlSep ++ serializeElem f.to_DOM := by
    rw [ET_tostring, xmlSep, List.append_assoc]
    rfl
  have hchain := chain_serializeElem f.to_DOM (goodTags_to_DOM f hl hw)
  have hni : ¬("<?xml".data <:+: serializeElem f.to_DOM) := not_infix_declaration hchain
  have hsepni : ¬(xmlSep <:+: serializeElem f.to_DOM) := by
    intro hinf
    exact hni ((show ("<?xml".data : List Char) <+: xmlSep by decide).isInfix.trans hinf)
  refine ⟨rfl, hassoc, ⟨serializeElem f.to_DOM, hassoc.symm⟩, ?_, hni⟩
  show ((pySplit xmlSep (ET_tostring f.to_DOM))[1]?).map String.mk = _
  rw [hassoc, pySplit_of_sep_prefix xmlSep (serializeElem f.to_DOM) (by decide) hsepni]
  rfl

/-- Witness for C7 on the sample forecast, whose collaborator subtrees
have well-formed tags. -/
theorem forecast_to_XML_spec_witness :
    (Elem.goodTags locA.domVal = true)
    ∧ sampleForecast.to_XML true = some (String.mk (ET_tostring sampleForecast.to_DOM))
    ∧ sampleForecast.to_XML false =
        some (String.mk (serializeElem sampleForecast.to_DOM))
    ∧ ¬("<?xml".data <:+: serializeElem sampleForecast.to_DOM) := by
  have hl : Elem.goodTags locA.domVal = true := by
    show Elem.goodTags (Elem.elem "location" "" []) = true
    rw [Elem.goodTags, Elem.goodTagsList]
    decide
  have hw : ∀ w ∈ sampleForecast.weathers, Elem.goodTags w.domVal = true := by
    intro w hmem
    simp only [sampleForecast, List.mem_cons, List.not_mem_nil, or_false] at hmem
    rcases hmem with rfl | rfl
    · show Elem.goodTags (Elem.elem "weather" "" []) = true
      rw [Elem.goodTags, Elem.goodTagsList]
      decide
    · show Elem.goodTags (Elem.elem "weather" "" []) = true
      rw [Elem.goodTags, Elem.goodTagsList]
      decide
  have h := forecast_to_XML_spec sampleForecast hl hw
  exact ⟨hl, h.1, h.2.2.2.1, h.2.2.2.2⟩
